import Mathlib

/-!
Verification of the multi-model request execution core of the Chart-Wargame
repository (src/services/geminiService.ts, pipeline variant).

Shallow embedding notes.

The TypeScript core is a sequence of async calls.  Since the orchestrator
visits models strictly in order and the attempt runner issues calls for one
model strictly in order, an execution is fully determined by an oracle
describing, for pipeline index i and per-model call index j, how the
underlying apiCall promise behaves: after how many milliseconds it settles
(`settleTime`) and whether it fulfils with a parsed value or rejects with an
error message (`result`).  `withTimeout` races that promise against a fixed
deadline, exactly as `Promise.race` does in the source.

Status callbacks (`onUpdate`) are synchronous functions that may throw; they
are modelled as `String → Except String Unit` (error = the thrown message).
The source does not guard callback invocations, and the embedding mirrors
that: a callback error flows through the same control paths as any other
exception.

Every run also produces a trace of observable events (endpoint calls,
waits, status-callback invocations) so that counting properties (number of
endpoint calls, waits, emitted statuses) can be stated.

String classification in the source lowercases the message with
`String.toLowerCase` and tests `String.includes` on ASCII markers; the
embedding lowercases with `Char.toLower` (ASCII, which agrees with
JavaScript on all markers involved) and uses an executable substring test.
-/

/-- One observable event of a pipeline run:
an endpoint call (pipeline model index, per-model call index),
a `wait ms` sleep, or a status-callback invocation with its message. -/
inductive Ev where
  | call : Nat → Nat → Ev
  | wait : Nat → Ev
  | status : String → Ev
deriving DecidableEq

/-- Behaviour of one underlying apiCall promise: the wall-clock time at which
it settles and its settlement (fulfilled value or rejection message). -/
structure Call (T : Type) where
  settleTime : Nat
  result : Except String T

/-- A status callback: returns `ok` or throws (the `error` message). -/
def CB : Type := String → Except String Unit

/-- Test that `pat` is a leading segment of `s`. -/
def chListLead : List Char → List Char → Bool
  | [], _ => true
  | _ :: _, [] => false
  | a :: ps, b :: ss => a == b && chListLead ps ss

/-- Test that `pat` occurs contiguously somewhere in `s`. -/
def chListSub (pat : List Char) : List Char → Bool
  | [] => chListLead pat []
  | c :: t => chListLead pat (c :: t) || chListSub pat t

/-- JavaScript substring test, `s.includes(pat)`. -/
def strHas (s pat : String) : Bool :=
  chListSub pat.toList s.toList

/-- JavaScript `s.toLowerCase()` (ASCII range, which covers every marker the
source tests for). -/
def lowerStr (s : String) : String :=
  String.mk (s.toList.map Char.toLower)

/-- geminiService.ts line 110: `msg.includes("api key") || msg.includes("permission denied")`,
on the lowercased message. -/
def isFatalMsg (m : String) : Bool :=
  strHas m "api key" || strHas m "permission denied"

/-- geminiService.ts lines 98-105: the switch-eligible classification tested
by the orchestrator, on the lowercased message. -/
def isRecoverableBySwitching (m : String) : Bool :=
  strHas m "429" || strHas m "quota" || strHas m "resource_exhausted" ||
  strHas m "503" || strHas m "service unavailable" ||
  strHas m "fetch failed" || strHas m "overloaded"

/-- geminiService.ts line 157: `msg.includes("429") || msg.includes("quota") || msg.includes("503")`,
the attempt runner immediate-rethrow test, on the lowercased message. -/
def isHardError (m : String) : Bool :=
  strHas m "429" || strHas m "quota" || strHas m "503"

/-- geminiService.ts lines 39-51: race the promise against a `ms` deadline.
If the promise settles strictly before the deadline its own settlement wins;
otherwise the timeout rejection wins, and a late settlement of the
underlying promise (even a fulfilment) is discarded. -/
def withTimeout {T : Type} (c : Call T) (ms : Nat) (errorMessage : String) :
    Except String T :=
  if c.settleTime < ms then c.result
  else Except.error ("⏱️ TIMEOUT: " ++ errorMessage)

/-- Invoke the optional status callback with a message, recording the
invocation as an event.  Mirrors the bare `if (onUpdate) onUpdate(msg)` of
the source: no guard, so an exception from the callback propagates. -/
def cbInvoke (u : Option CB) (msg : String) : Except String Unit × List Ev :=
  match u with
  | none => (Except.ok (), [])
  | some f => (f msg, [Ev.status msg])

/-- geminiService.ts lines 141-172, `attemptModelExecution` generalised over
the retry budget and delay (the source fixes `retries = 1`, `delay = 1500`).
`oracle j` is the behaviour of the j-th apiCall issued for this model;
`mi` is the pipeline index of the model (trace bookkeeping only).
The `while (true)` loop of the source terminates because `retries` strictly
decreases on the only `continue` path, which is the structural recursion
here.  On a failure: messages containing 429/quota/503 are rethrown at once;
otherwise, with retries remaining, the callback is notified (unguarded — its
exception aborts the loop), `wait delay` elapses, and the loop re-enters
with `retries - 1` and `delay + 1000`. -/
def attemptRun {T : Type} (oracle : Nat → Call T) (u : Option CB)
    (context model : String) (mi : Nat) :
    Nat → Nat → Nat → Except String T × List Ev
  | retries, delay, callIdx =>
    match withTimeout (oracle callIdx) 25000 (context ++ " (" ++ model ++ ")") with
    | Except.ok t => (Except.ok t, [Ev.call mi callIdx])
    | Except.error e =>
      if isHardError (lowerStr e) then
        (Except.error e, [Ev.call mi callIdx])
      else
        match retries with
        | 0 => (Except.error e, [Ev.call mi callIdx])
        | r + 1 =>
          match cbInvoke u ("⚠️ RETRYING " ++ context ++ " (" ++ toString (r + 1) ++ ")...") with
          | (Except.error ce, sevs) => (Except.error ce, Ev.call mi callIdx :: sevs)
          | (Except.ok _, sevs) =>
            let rest := attemptRun oracle u context model mi r (delay + 1000) (callIdx + 1)
            (rest.fst, Ev.call mi callIdx :: (sevs ++ (Ev.wait delay :: rest.snd)))

/-- The attempt loop as called by the orchestrator: retry budget 1,
initial delay 1500 ms (geminiService.ts lines 147-148). -/
def attemptModelExecution {T : Type} (oracle : Nat → Call T) (u : Option CB)
    (model context : String) (mi : Nat) : Except String T × List Ev :=
  attemptRun oracle u context model mi 1 1500 0

/-- geminiService.ts lines 74-137, the model-pipeline loop, as structural
recursion over the remaining model list; `i` is the absolute pipeline index
of the head, `lastErr` the `lastError` accumulator of the source.  The body of
one iteration:
* if this is a fallback model (`i > 0`) and a callback is supplied, the
  "ENGAGING BACKUP ENGINE" status is emitted and `wait 500` elapses — inside
  the `try`, so a throwing callback is caught by the handler of this iteration;
* the attempt runner is invoked for the current model;
* on success the result is returned tagged with `model_used`;
* the handler rethrows fatal (auth) errors untouched; otherwise, on the last
  index, switch-eligible errors become the synthesized ALL ENGINES FAILED
  error and other errors are rethrown untouched; on a non-last index both
  switch-eligible and unknown errors continue with the next model (the two
  source branches differ only in a console message).
The `[]` case is the `throw lastError` after the loop, reachable only for an
empty pipeline. -/
def pipelineGo {T : Type} (op : String) (u : Option CB)
    (oracle : Nat → Nat → Call T) :
    List String → Nat → Option String → Except String (T × String) × List Ev
  | [], _, lastErr => (Except.error (lastErr.getD ""), [])
  | m :: rest, i, _ =>
    let fbMsg := "⚠️ ENGAGING BACKUP ENGINE: " ++ m ++ "..."
    let pre : Except String Unit × List Ev :=
      match u, i with
      | some f, _ + 1 =>
        match f fbMsg with
        | Except.ok _ => (Except.ok (), [Ev.status fbMsg, Ev.wait 500])
        | Except.error ce => (Except.error ce, [Ev.status fbMsg])
      | _, _ => (Except.ok (), [])
    let tryOut : Except String T × List Ev :=
      match pre with
      | (Except.error ce, evs) => (Except.error ce, evs)
      | (Except.ok _, evs) =>
        let att := attemptModelExecution (oracle i) u m op i
        (att.fst, evs ++ att.snd)
    match tryOut with
    | (Except.ok t, evs) => (Except.ok (t, m), evs)
    | (Except.error e, evs) =>
      if isFatalMsg (lowerStr e) then
        (Except.error e, evs)
      else
        match rest with
        | [] =>
          if isRecoverableBySwitching (lowerStr e) then
            (Except.error ("⚠️ CRITICAL: ALL ENGINES FAILED. LAST ERROR: " ++ lowerStr e), evs)
          else
            (Except.error e, evs)
        | _ :: _ =>
          let nxt := pipelineGo op u oracle rest (i + 1) (some e)
          (nxt.fst, evs ++ nxt.snd)

/-- geminiService.ts lines 65-138: run the pipeline from index 0. -/
def executeWithModelPipeline {T : Type} (op : String) (u : Option CB)
    (oracle : Nat → Nat → Call T) (models : List String) :
    Except String (T × String) × List Ev :=
  pipelineGo op u oracle models 0 none

/-- Number of endpoint calls recorded in a trace. -/
def countCalls (evs : List Ev) : Nat :=
  evs.countP (fun e => match e with | Ev.call _ _ => true | _ => false)

-- --- ADAPTER RESULT SHAPES (src/unnamed/part_000, types) ---

/-- One predicted OHLC bar.  Numeric JSON values are modelled as rationals;
their magnitudes play no role in any claim. -/
structure GhostCandle where
  day : Rat
  «open» : Rat
  high : Rat
  low : Rat
  close : Rat
deriving DecidableEq

/-- What the Market Intelligence closure returns on one successful parse
(summary, headlines, grounding sources as title/uri pairs); `model_used`
is added by the pipeline afterwards. -/
structure MarketCore where
  summary : String
  headlines : List String
  sources : List (String × String)
deriving DecidableEq

/-- The `MarketData` record handed back to the UI; `model_used` is optional
because the degraded-mode literal at geminiService.ts line 304 omits it. -/
structure MarketData where
  summary : String
  headlines : List String
  sources : List (String × String)
  model_used : Option String
deriving DecidableEq

/-- What the Simulation closure returns on one successful parse. -/
structure SimCore where
  analysis : String
  ghost_candles : List GhostCandle
deriving DecidableEq

/-- What the Backtest closure returns on one successful parse (the source
also stamps `timestamp: Date.now()`, ambient wall-clock data irrelevant to
every claim and omitted here). -/
structure BacktestCore where
  score : Rat
  critique : String
deriving DecidableEq

/-- What the Chart Analysis closure returns on one successful parse. -/
structure AnalysisCore where
  ticker : Option String
  technical_summary : String
  trend : String
  support_resistance : String
  support : Rat
  resistance : Rat
deriving DecidableEq

-- --- ADAPTERS (geminiService.ts lines 229-398) ---
-- Each oracle argument abstracts the adapter closure (network call plus
-- response parsing): `oracle i j` is the settled outcome of the j-th
-- closure invocation for pipeline index i.

/-- geminiService.ts lines 229-263: `analyzeChart` submits its closure to the
pipeline and lets any terminal pipeline error surface unchanged. -/
def analyzeChart (u : Option CB) (oracle : Nat → Nat → Call AnalysisCore)
    (models : List String) : Except String (AnalysisCore × String) × List Ev :=
  executeWithModelPipeline "Chart Analysis" u oracle models

/-- geminiService.ts lines 265-306: `fetchMarketContext` wraps the pipeline
in try/catch; a terminal pipeline error is swallowed and replaced by the
degraded-mode placeholder literal of line 304 (whose record has no
model_used field). -/
def fetchMarketContext (u : Option CB) (oracle : Nat → Nat → Call MarketCore)
    (models : List String) : MarketData × List Ev :=
  match executeWithModelPipeline "Market Intel" u oracle models with
  | (Except.ok (c, m), evs) =>
    (⟨c.summary, c.headlines, c.sources, some m⟩, evs)
  | (Except.error _, evs) =>
    (⟨"REAL-TIME DATA UNAVAILABLE.", [], [], none⟩, evs)

/-- geminiService.ts lines 308-352: `runSimulation` submits its closure to
the pipeline and lets any terminal pipeline error surface unchanged. -/
def runSimulation (u : Option CB) (oracle : Nat → Nat → Call SimCore)
    (models : List String) : Except String (SimCore × String) × List Ev :=
  executeWithModelPipeline "Simulation" u oracle models

/-- geminiService.ts lines 354-398: `calculateBacktestScore` submits its
closure to the pipeline and lets any terminal pipeline error surface
unchanged (no placeholder branch exists). -/
def calculateBacktestScore (u : Option CB) (oracle : Nat → Nat → Call BacktestCore)
    (models : List String) : Except String (BacktestCore × String) × List Ev :=
  executeWithModelPipeline "Backtest" u oracle models

section Helpers

variable {T : Type}

theorem withTimeout_ok_iff {c : Call T} {ms : Nat} {msg : String} {t : T} :
    withTimeout c ms msg = Except.ok t ↔ c.settleTime < ms ∧ c.result = Except.ok t := by
  unfold withTimeout
  split
  · simp_all
  · simp_all [Nat.not_lt]

theorem withTimeout_late {c : Call T} {ms : Nat} {msg : String}
    (h : ms ≤ c.settleTime) :
    withTimeout c ms msg = Except.error ("⏱️ TIMEOUT: " ++ msg) := by
  unfold withTimeout
  rw [if_neg (Nat.not_lt.mpr h)]

/-- Proof scaffolding: the catch-handler of one orchestrator iteration
(geminiService.ts lines 92-134) as a standalone function of the caught
error and the events accumulated so far.  `pipelineGo` on a nonempty list
is definitionally one try-block feeding this handler
(lemma `pipelineGo_cons_def`). -/
def pipeAfter {T : Type} (op : String) (u : Option CB) (oracle : Nat → Nat → Call T)
    (rest : List String) (i : Nat) (e : String) (evs : List Ev) :
    Except String (T × String) × List Ev :=
  if isFatalMsg (lowerStr e) then
    (Except.error e, evs)
  else
    match rest with
    | [] =>
      if isRecoverableBySwitching (lowerStr e) then
        (Except.error ("⚠️ CRITICAL: ALL ENGINES FAILED. LAST ERROR: " ++ lowerStr e), evs)
      else
        (Except.error e, evs)
    | _ :: _ =>
      let nxt := pipelineGo op u oracle rest (i + 1) (some e)
      (nxt.fst, evs ++ nxt.snd)

/-- One-step unfolding of `pipelineGo` on a nonempty pipeline, phrased with
`pipeAfter`. -/
theorem pipelineGo_cons_def (op : String) (u : Option CB) (oracle : Nat → Nat → Call T)
    (m : String) (rest : List String) (i : Nat) (le : Option String) :
    pipelineGo op u oracle (m :: rest) i le =
      (match (match u, i with
              | some f, _ + 1 =>
                (match f ("⚠️ ENGAGING BACKUP ENGINE: " ++ m ++ "...") with
                 | Except.ok _ =>
                   ((Except.ok () : Except String Unit),
                    [Ev.status ("⚠️ ENGAGING BACKUP ENGINE: " ++ m ++ "..."), Ev.wait 500])
                 | Except.error ce =>
                   (Except.error ce, [Ev.status ("⚠️ ENGAGING BACKUP ENGINE: " ++ m ++ "...")]))
              | _, _ => ((Except.ok () : Except String Unit), ([] : List Ev))) with
       | (Except.error ce, evs) => pipeAfter op u oracle rest i ce evs
       | (Except.ok _, evs) =>
         match attemptModelExecution (oracle i) u m op i with
         | (Except.ok t, aevs) => (Except.ok (t, m), evs ++ aevs)
         | (Except.error e, aevs) => pipeAfter op u oracle rest i e (evs ++ aevs)) := by
  show pipelineGo op u oracle (m :: rest) i le = _
  unfold pipelineGo pipeAfter
  cases u with
  | none =>
    cases hatt : attemptModelExecution (oracle i) none m op i with
    | mk a b => cases a <;> simp_all
  | some f =>
    cases i with
    | zero =>
      cases hatt : attemptModelExecution (oracle 0) (some f) m op 0 with
      | mk a b => cases a <;> simp_all
    | succ k =>
      cases hf : f ("⚠️ ENGAGING BACKUP ENGINE: " ++ m ++ "...") with
      | ok uu =>
        cases hatt : attemptModelExecution (oracle (k + 1)) (some f) m op (k + 1) with
        | mk a b => cases a <;> simp_all
      | error ce => simp_all

theorem attemptRun_ok_eq {oracle : Nat → Call T} {u : Option CB}
    {ctx model : String} {mi retries delay idx : Nat} {t : T}
    (h : withTimeout (oracle idx) 25000 (ctx ++ " (" ++ model ++ ")") = Except.ok t) :
    attemptRun oracle u ctx model mi retries delay idx = (Except.ok t, [Ev.call mi idx]) := by
  unfold attemptRun
  rw [h]

theorem attemptRun_hard_eq {oracle : Nat → Call T} {u : Option CB}
    {ctx model : String} {mi retries delay idx : Nat} {e : String}
    (h : withTimeout (oracle idx) 25000 (ctx ++ " (" ++ model ++ ")") = Except.error e)
    (hh : isHardError (lowerStr e) = true) :
    attemptRun oracle u ctx model mi retries delay idx = (Except.error e, [Ev.call mi idx]) := by
  unfold attemptRun
  rw [h]
  simp [hh]

theorem attemptRun_soft_zero {oracle : Nat → Call T} {u : Option CB}
    {ctx model : String} {mi delay idx : Nat} {e : String}
    (h : withTimeout (oracle idx) 25000 (ctx ++ " (" ++ model ++ ")") = Except.error e)
    (hh : isHardError (lowerStr e) = false) :
    attemptRun oracle u ctx model mi 0 delay idx = (Except.error e, [Ev.call mi idx]) := by
  unfold attemptRun
  rw [h]
  simp [hh]

theorem attemptRun_soft_step_none {oracle : Nat → Call T}
    {ctx model : String} {mi r delay idx : Nat} {e : String}
    (h : withTimeout (oracle idx) 25000 (ctx ++ " (" ++ model ++ ")") = Except.error e)
    (hh : isHardError (lowerStr e) = false) :
    attemptRun oracle none ctx model mi (r + 1) delay idx =
      ((attemptRun oracle none ctx model mi r (delay + 1000) (idx + 1)).fst,
       Ev.call mi idx ::
         Ev.wait delay :: (attemptRun oracle none ctx model mi r (delay + 1000) (idx + 1)).snd) := by
  conv_lhs => unfold attemptRun
  rw [h]
  simp [hh, cbInvoke]

theorem attemptRun_soft_step_some {oracle : Nat → Call T} {f : CB}
    {ctx model : String} {mi r delay idx : Nat} {e : String}
    (h : withTimeout (oracle idx) 25000 (ctx ++ " (" ++ model ++ ")") = Except.error e)
    (hh : isHardError (lowerStr e) = false)
    (hf : f ("⚠️ RETRYING " ++ ctx ++ " (" ++ toString (r + 1) ++ ")...") = Except.ok ()) :
    attemptRun oracle (some f) ctx model mi (r + 1) delay idx =
      ((attemptRun oracle (some f) ctx model mi r (delay + 1000) (idx + 1)).fst,
       Ev.call mi idx ::
         Ev.status ("⚠️ RETRYING " ++ ctx ++ " (" ++ toString (r + 1) ++ ")...") ::
           Ev.wait delay ::
             (attemptRun oracle (some f) ctx model mi r (delay + 1000) (idx + 1)).snd) := by
  conv_lhs => unfold attemptRun
  rw [h]
  simp [hh, cbInvoke, hf]

theorem attemptRun_soft_cbthrow {oracle : Nat → Call T} {f : CB}
    {ctx model : String} {mi r delay idx : Nat} {e ce : String}
    (h : withTimeout (oracle idx) 25000 (ctx ++ " (" ++ model ++ ")") = Except.error e)
    (hh : isHardError (lowerStr e) = false)
    (hf : f ("⚠️ RETRYING " ++ ctx ++ " (" ++ toString (r + 1) ++ ")...") = Except.error ce) :
    attemptRun oracle (some f) ctx model mi (r + 1) delay idx =
      (Except.error ce,
       [Ev.call mi idx,
        Ev.status ("⚠️ RETRYING " ++ ctx ++ " (" ++ toString (r + 1) ++ ")...")]) := by
  conv_lhs => unfold attemptRun
  rw [h]
  simp [hh, cbInvoke, hf]

theorem pipeAfter_fatal {oracle : Nat → Nat → Call T} {op : String} {u : Option CB}
    {rest : List String} {i : Nat} {e : String} {evs : List Ev}
    (hf : isFatalMsg (lowerStr e) = true) :
    pipeAfter op u oracle rest i e evs = (Except.error e, evs) := by
  unfold pipeAfter
  simp [hf]

theorem pipeAfter_last_unknown {oracle : Nat → Nat → Call T} {op : String} {u : Option CB}
    {i : Nat} {e : String} {evs : List Ev}
    (hf : isFatalMsg (lowerStr e) = false)
    (hr : isRecoverableBySwitching (lowerStr e) = false) :
    pipeAfter op u oracle [] i e evs = (Except.error e, evs) := by
  unfold pipeAfter
  simp [hf, hr]

theorem countCalls_nil : countCalls [] = 0 := rfl

theorem countCalls_cons_call (a b : Nat) (l : List Ev) :
    countCalls (Ev.call a b :: l) = countCalls l + 1 := by
  simp [countCalls, List.countP_cons]

theorem countCalls_cons_wait (n : Nat) (l : List Ev) :
    countCalls (Ev.wait n :: l) = countCalls l := by
  simp [countCalls, List.countP_cons]

theorem countCalls_cons_status (s : String) (l : List Ev) :
    countCalls (Ev.status s :: l) = countCalls l := by
  simp [countCalls, List.countP_cons]

theorem countCalls_append (l1 l2 : List Ev) :
    countCalls (l1 ++ l2) = countCalls l1 + countCalls l2 := by
  simp [countCalls, List.countP_append]

/-- The attempt runner makes at most `retries + 1` endpoint calls. -/
theorem attemptRun_calls_le {oracle : Nat → Call T} {u : Option CB}
    {ctx model : String} {mi : Nat} :
    ∀ retries delay idx,
      countCalls (attemptRun oracle u ctx model mi retries delay idx).snd ≤ retries + 1 := by
  intro retries
  induction retries with
  | zero =>
    intro delay idx
    cases h : withTimeout (oracle idx) 25000 (ctx ++ " (" ++ model ++ ")") with
    | ok t =>
      rw [attemptRun_ok_eq h]
      simp [countCalls_cons_call, countCalls_nil]
    | error e =>
      cases hh : isHardError (lowerStr e) with
      | true =>
        rw [attemptRun_hard_eq h hh]
        simp [countCalls_cons_call, countCalls_nil]
      | false =>
        rw [attemptRun_soft_zero h hh]
        simp [countCalls_cons_call, countCalls_nil]
  | succ r ih =>
    intro delay idx
    cases h : withTimeout (oracle idx) 25000 (ctx ++ " (" ++ model ++ ")") with
    | ok t =>
      rw [attemptRun_ok_eq h]
      simp [countCalls_cons_call, countCalls_nil]
    | error e =>
      cases hh : isHardError (lowerStr e) with
      | true =>
        rw [attemptRun_hard_eq h hh]
        simp [countCalls_cons_call, countCalls_nil]
      | false =>
        cases u with
        | none =>
          rw [attemptRun_soft_step_none h hh]
          rw [countCalls_cons_call, countCalls_cons_wait]
          have := ih (delay + 1000) (idx + 1)
          omega
        | some f =>
          cases hfc : f ("⚠️ RETRYING " ++ ctx ++ " (" ++ toString (r + 1) ++ ")...") with
          | ok uu =>
            rw [attemptRun_soft_step_some h hh (by rw [hfc])]
            rw [countCalls_cons_call, countCalls_cons_status, countCalls_cons_wait]
            have := ih (delay + 1000) (idx + 1)
            omega
          | error ce =>
            rw [attemptRun_soft_cbthrow h hh hfc]
            simp [countCalls_cons_call, countCalls_cons_status, countCalls_nil]

/-- If the attempt runner returns a value, one of the oracle calls settled
in time and fulfilled with exactly that value. -/
theorem attemptRun_ok_src {oracle : Nat → Call T} {u : Option CB}
    {ctx model : String} {mi : Nat} :
    ∀ retries delay idx t,
      (attemptRun oracle u ctx model mi retries delay idx).fst = Except.ok t →
      ∃ j, (oracle j).settleTime < 25000 ∧ (oracle j).result = Except.ok t := by
  intro retries
  induction retries with
  | zero =>
    intro delay idx t hok
    cases h : withTimeout (oracle idx) 25000 (ctx ++ " (" ++ model ++ ")") with
    | ok t2 =>
      rw [attemptRun_ok_eq h] at hok
      simp at hok
      subst hok
      obtain ⟨h1, h2⟩ := withTimeout_ok_iff.mp h
      exact ⟨idx, h1, h2⟩
    | error e =>
      cases hh : isHardError (lowerStr e) with
      | true => rw [attemptRun_hard_eq h hh] at hok; simp at hok
      | false => rw [attemptRun_soft_zero h hh] at hok; simp at hok
  | succ r ih =>
    intro delay idx t hok
    cases h : withTimeout (oracle idx) 25000 (ctx ++ " (" ++ model ++ ")") with
    | ok t2 =>
      rw [attemptRun_ok_eq h] at hok
      simp at hok
      subst hok
      obtain ⟨h1, h2⟩ := withTimeout_ok_iff.mp h
      exact ⟨idx, h1, h2⟩
    | error e =>
      cases hh : isHardError (lowerStr e) with
      | true => rw [attemptRun_hard_eq h hh] at hok; simp at hok
      | false =>
        cases u with
        | none =>
          rw [attemptRun_soft_step_none h hh] at hok
          exact ih (delay + 1000) (idx + 1) t hok
        | some f =>
          cases hfc : f ("⚠️ RETRYING " ++ ctx ++ " (" ++ toString (r + 1) ++ ")...") with
          | ok uu =>
            rw [attemptRun_soft_step_some h hh (by rw [hfc])] at hok
            exact ih (delay + 1000) (idx + 1) t hok
          | error ce =>
            rw [attemptRun_soft_cbthrow h hh hfc] at hok
            simp at hok

/-- A callback that never throws does not influence the attempt runner
result. -/
theorem attemptRun_cb_fst {oracle : Nat → Call T} {f : CB}
    {ctx model : String} {mi : Nat}
    (hf : ∀ s, f s = Except.ok ()) :
    ∀ retries delay idx,
      (attemptRun oracle (some f) ctx model mi retries delay idx).fst =
      (attemptRun oracle none ctx model mi retries delay idx).fst := by
  intro retries
  induction retries with
  | zero =>
    intro delay idx
    cases h : withTimeout (oracle idx) 25000 (ctx ++ " (" ++ model ++ ")") with
    | ok t => rw [attemptRun_ok_eq h, attemptRun_ok_eq h]
    | error e =>
      cases hh : isHardError (lowerStr e) with
      | true => rw [attemptRun_hard_eq h hh, attemptRun_hard_eq h hh]
      | false => rw [attemptRun_soft_zero h hh, attemptRun_soft_zero h hh]
  | succ r ih =>
    intro delay idx
    cases h : withTimeout (oracle idx) 25000 (ctx ++ " (" ++ model ++ ")") with
    | ok t => rw [attemptRun_ok_eq h, attemptRun_ok_eq h]
    | error e =>
      cases hh : isHardError (lowerStr e) with
      | true => rw [attemptRun_hard_eq h hh, attemptRun_hard_eq h hh]
      | false =>
        rw [attemptRun_soft_step_some h hh (hf _), attemptRun_soft_step_none h hh]
        exact ih (delay + 1000) (idx + 1)

/-- Every attempt-runner trace starts with its first endpoint call. -/
theorem attemptRun_call_mem {oracle : Nat → Call T} {u : Option CB}
    {ctx model : String} {mi retries delay idx : Nat} :
    Ev.call mi idx ∈ (attemptRun oracle u ctx model mi retries delay idx).snd := by
  cases h : withTimeout (oracle idx) 25000 (ctx ++ " (" ++ model ++ ")") with
  | ok t => rw [attemptRun_ok_eq h]; simp
  | error e =>
    cases hh : isHardError (lowerStr e) with
    | true => rw [attemptRun_hard_eq h hh]; simp
    | false =>
      cases retries with
      | zero => rw [attemptRun_soft_zero h hh]; simp
      | succ r =>
        cases u with
        | none => rw [attemptRun_soft_step_none h hh]; simp
        | some f =>
          cases hfc : f ("⚠️ RETRYING " ++ ctx ++ " (" ++ toString (r + 1) ++ ")...") with
          | ok uu => rw [attemptRun_soft_step_some h hh (by rw [hfc])]; simp
          | error ce => rw [attemptRun_soft_cbthrow h hh hfc]; simp

theorem pipelineGo_att_ok_none {oracle : Nat → Nat → Call T} {op m : String}
    {rest : List String} {i : Nat} {le : Option String} {t : T} {aevs : List Ev}
    (hatt : attemptModelExecution (oracle i) none m op i = (Except.ok t, aevs)) :
    pipelineGo op none oracle (m :: rest) i le = (Except.ok (t, m), aevs) := by
  rw [pipelineGo_cons_def]
  simp [hatt]

theorem pipelineGo_att_err_none {oracle : Nat → Nat → Call T} {op m : String}
    {rest : List String} {i : Nat} {le : Option String} {e : String} {aevs : List Ev}
    (hatt : attemptModelExecution (oracle i) none m op i = (Except.error e, aevs)) :
    pipelineGo op none oracle (m :: rest) i le = pipeAfter op none oracle rest i e aevs := by
  rw [pipelineGo_cons_def]
  simp [hatt]

theorem pipelineGo_att_ok_zero {oracle : Nat → Nat → Call T} {op m : String}
    {u : Option CB} {rest : List String} {le : Option String} {t : T} {aevs : List Ev}
    (hatt : attemptModelExecution (oracle 0) u m op 0 = (Except.ok t, aevs)) :
    pipelineGo op u oracle (m :: rest) 0 le = (Except.ok (t, m), aevs) := by
  rw [pipelineGo_cons_def]
  cases u <;> simp [hatt]

theorem pipelineGo_att_err_zero {oracle : Nat → Nat → Call T} {op m : String}
    {u : Option CB} {rest : List String} {le : Option String} {e : String} {aevs : List Ev}
    (hatt : attemptModelExecution (oracle 0) u m op 0 = (Except.error e, aevs)) :
    pipelineGo op u oracle (m :: rest) 0 le = pipeAfter op u oracle rest 0 e aevs := by
  rw [pipelineGo_cons_def]
  cases u <;> simp [hatt]

theorem pipelineGo_att_ok_some {oracle : Nat → Nat → Call T} {op m : String}
    {f : CB} {rest : List String} {k : Nat} {le : Option String} {t : T} {aevs : List Ev}
    (hfb : f ("⚠️ ENGAGING BACKUP ENGINE: " ++ m ++ "...") = Except.ok ())
    (hatt : attemptModelExecution (oracle (k + 1)) (some f) m op (k + 1) = (Except.ok t, aevs)) :
    pipelineGo op (some f) oracle (m :: rest) (k + 1) le =
      (Except.ok (t, m),
       Ev.status ("⚠️ ENGAGING BACKUP ENGINE: " ++ m ++ "...") :: Ev.wait 500 :: aevs) := by
  rw [pipelineGo_cons_def]
  simp [hfb, hatt]

theorem pipelineGo_att_err_some {oracle : Nat → Nat → Call T} {op m : String}
    {f : CB} {rest : List String} {k : Nat} {le : Option String} {e : String} {aevs : List Ev}
    (hfb : f ("⚠️ ENGAGING BACKUP ENGINE: " ++ m ++ "...") = Except.ok ())
    (hatt : attemptModelExecution (oracle (k + 1)) (some f) m op (k + 1) = (Except.error e, aevs)) :
    pipelineGo op (some f) oracle (m :: rest) (k + 1) le =
      pipeAfter op (some f) oracle rest (k + 1) e
        (Ev.status ("⚠️ ENGAGING BACKUP ENGINE: " ++ m ++ "...") :: Ev.wait 500 :: aevs) := by
  rw [pipelineGo_cons_def]
  simp [hfb, hatt]

theorem pipelineGo_fb_throw {oracle : Nat → Nat → Call T} {op m : String}
    {f : CB} {rest : List String} {k : Nat} {le : Option String} {ce : String}
    (hfb : f ("⚠️ ENGAGING BACKUP ENGINE: " ++ m ++ "...") = Except.error ce) :
    pipelineGo op (some f) oracle (m :: rest) (k + 1) le =
      pipeAfter op (some f) oracle rest (k + 1) ce
        [Ev.status ("⚠️ ENGAGING BACKUP ENGINE: " ++ m ++ "...")] := by
  rw [pipelineGo_cons_def]
  simp [hfb]

/-- If the pipeline returns a value tagged `model_used = m`, then `m` is the
pipeline entry at some index `k` and some oracle call for index `k` settled
in time and fulfilled with exactly the returned value. -/
theorem pipe_ok_src {oracle : Nat → Nat → Call T} {op : String} {u : Option CB} :
    ∀ (ms : List String) (i : Nat) (le : Option String) (t : T) (m : String),
      (pipelineGo op u oracle ms i le).fst = Except.ok (t, m) →
      ∃ k j, ms.get? k = some m ∧ (oracle (i + k) j).settleTime < 25000 ∧
        (oracle (i + k) j).result = Except.ok t := by
  intro ms
  induction ms with
  | nil =>
    intro i le t m h
    simp [pipelineGo] at h
  | cons mm rest ih =>
    intro i le t m h
    have hAfter : ∀ (u2 : Option CB) (e : String) (aevs : List Ev),
        (pipeAfter op u oracle rest i e aevs).fst = Except.ok (t, m) →
        ∃ k j, (mm :: rest).get? k = some m ∧ (oracle (i + k) j).settleTime < 25000 ∧
          (oracle (i + k) j).result = Except.ok t := by
      intro u2 e aevs hh
      unfold pipeAfter at hh
      by_cases hfatal : isFatalMsg (lowerStr e) = true
      · rw [if_pos hfatal] at hh
        simp at hh
      · rw [if_neg hfatal] at hh
        cases rest with
        | nil =>
          by_cases hrec : isRecoverableBySwitching (lowerStr e) = true
          · simp [hrec] at hh
          · simp [hrec] at hh
        | cons r2 rs =>
          simp at hh
          obtain ⟨k, j, hget, hs, hr⟩ := ih (i + 1) (some e) t m hh
          refine ⟨k + 1, j, hget, ?_, ?_⟩
          · have harith : i + (k + 1) = i + 1 + k := by omega
            rw [harith]
            exact hs
          · have harith : i + (k + 1) = i + 1 + k := by omega
            rw [harith]
            exact hr
    have hOkCase : ∀ (t2 : T) (aevs : List Ev),
        attemptModelExecution (oracle i) u mm op i = (Except.ok t2, aevs) →
        t2 = t → mm = m →
        ∃ k j, (mm :: rest).get? k = some m ∧ (oracle (i + k) j).settleTime < 25000 ∧
          (oracle (i + k) j).result = Except.ok t := by
      intro t2 aevs hatt ht hm
      have hfst : (attemptRun (oracle i) u op mm i 1 1500 0).fst = Except.ok t2 := by
        have := congrArg Prod.fst hatt
        simpa [attemptModelExecution] using this
      obtain ⟨j, hs, hr⟩ := attemptRun_ok_src 1 1500 0 t2 hfst
      refine ⟨0, j, by simp [hm], by simpa using hs, by simpa [ht] using hr⟩
    cases u with
    | none =>
      cases hatt : attemptModelExecution (oracle i) none mm op i with
      | mk a aevs =>
        cases a with
        | ok t2 =>
          rw [pipelineGo_att_ok_none hatt] at h
          simp at h
          exact hOkCase t2 aevs hatt h.1 h.2
        | error e =>
          rw [pipelineGo_att_err_none hatt] at h
          exact hAfter none e aevs h
    | some f =>
      cases i with
      | zero =>
        cases hatt : attemptModelExecution (oracle 0) (some f) mm op 0 with
        | mk a aevs =>
          cases a with
          | ok t2 =>
            rw [pipelineGo_att_ok_zero hatt] at h
            simp at h
            exact hOkCase t2 aevs hatt h.1 h.2
          | error e =>
            rw [pipelineGo_att_err_zero hatt] at h
            exact hAfter (some f) e aevs h
      | succ k =>
        cases hfb : f ("⚠️ ENGAGING BACKUP ENGINE: " ++ mm ++ "...") with
        | ok uu =>
          cases hatt : attemptModelExecution (oracle (k + 1)) (some f) mm op (k + 1) with
          | mk a aevs =>
            cases a with
            | ok t2 =>
              rw [pipelineGo_att_ok_some (by rw [hfb]) hatt] at h
              simp at h
              exact hOkCase t2 aevs hatt h.1 h.2
            | error e =>
              rw [pipelineGo_att_err_some (by rw [hfb]) hatt] at h
              exact hAfter (some f) e _ h
        | error ce =>
          rw [pipelineGo_fb_throw hfb] at h
          exact hAfter (some f) ce _ h

/-- A status callback that never throws does not influence the pipeline
result. -/
theorem pipe_cb_fst {oracle : Nat → Nat → Call T} {op : String} {f : CB}
    (hf : ∀ s, f s = Except.ok ()) :
    ∀ (ms : List String) (i : Nat) (le : Option String),
      (pipelineGo op (some f) oracle ms i le).fst =
      (pipelineGo op none oracle ms i le).fst := by
  intro ms
  induction ms with
  | nil => intro i le; rfl
  | cons mm rest ih =>
    intro i le
    cases hattN : attemptModelExecution (oracle i) none mm op i with
    | mk aN evN =>
      cases hattS : attemptModelExecution (oracle i) (some f) mm op i with
      | mk aS evS =>
        have hS := congrArg Prod.fst hattS
        have hN := congrArg Prod.fst hattN
        have h1 := @attemptRun_cb_fst T (oracle i) f op mm i hf 1 1500 0
        have hsame : aS = aN := by
          have hS2 : (attemptRun (oracle i) (some f) op mm i 1 1500 0).fst = aS := by
            simpa [attemptModelExecution] using hS
          have hN2 : (attemptRun (oracle i) none op mm i 1 1500 0).fst = aN := by
            simpa [attemptModelExecution] using hN
          rw [← hS2, ← hN2, h1]
        cases aN with
        | ok t =>
          rw [hsame] at hattS
          cases i with
          | zero =>
            rw [pipelineGo_att_ok_zero hattS, pipelineGo_att_ok_none hattN]
          | succ k =>
            rw [pipelineGo_att_ok_some (hf _) hattS, pipelineGo_att_ok_none hattN]
        | error e =>
          rw [hsame] at hattS
          have hPA : ∀ evs1 evs2 : List Ev,
              (pipeAfter op (some f) oracle rest i e evs1).fst =
              (pipeAfter op none oracle rest i e evs2).fst := by
            intro evs1 evs2
            unfold pipeAfter
            by_cases hfatal : isFatalMsg (lowerStr e) = true
            · rw [if_pos hfatal, if_pos hfatal]
            · rw [if_neg hfatal, if_neg hfatal]
              cases rest with
              | nil =>
                by_cases hrec : isRecoverableBySwitching (lowerStr e) = true
                · simp [hrec]
                · simp [hrec]
              | cons r2 rs =>
                exact ih (i + 1) (some e)
          cases i with
          | zero =>
            rw [pipelineGo_att_err_zero hattS, pipelineGo_att_err_none hattN]
            exact hPA evS evN
          | succ k =>
            rw [pipelineGo_att_err_some (hf _) hattS, pipelineGo_att_err_none hattN]
            exact hPA _ evN

theorem chListLead_append {pat s : List Char} (r : List Char)
    (h : chListLead pat s = true) : chListLead pat (s ++ r) = true := by
  induction pat generalizing s with
  | nil => rfl
  | cons a ps ih =>
    cases s with
    | nil => simp [chListLead] at h
    | cons b ss =>
      simp only [chListLead, Bool.and_eq_true] at h
      simp only [List.cons_append, chListLead, Bool.and_eq_true]
      exact ⟨h.1, ih h.2⟩

theorem chListSub_nil_pat : ∀ l : List Char, chListSub [] l = true := by
  intro l
  induction l with
  | nil => rfl
  | cons c t ih => simp [chListSub, chListLead]

theorem chListSub_append_left {pat s : List Char} (r : List Char)
    (h : chListSub pat s = true) : chListSub pat (s ++ r) = true := by
  induction s with
  | nil =>
    cases pat with
    | nil => exact chListSub_nil_pat r
    | cons a ps => simp [chListSub, chListLead] at h
  | cons c t ih =>
    simp only [chListSub, Bool.or_eq_true] at h
    simp only [List.cons_append, chListSub, Bool.or_eq_true]
    cases h with
    | inl h => exact Or.inl (chListLead_append _ h)
    | inr h => exact Or.inr (ih h)

theorem strHas_append_left {a pat : String} (b : String)
    (h : strHas a pat = true) : strHas (a ++ b) pat = true := by
  unfold strHas at h ⊢
  have hdata : (a ++ b).toList = a.toList ++ b.toList := String.data_append a b
  rw [hdata]
  exact chListSub_append_left _ h

theorem lowerStr_append (a b : String) : lowerStr (a ++ b) = lowerStr a ++ lowerStr b := by
  cases a with
  | mk l1 =>
    cases b with
    | mk l2 =>
      show String.mk ((String.mk l1 ++ String.mk l2).toList.map Char.toLower) = _
      have h1 : String.mk l1 ++ String.mk l2 = String.mk (l1 ++ l2) := rfl
      rw [h1]
      show String.mk ((l1 ++ l2).map Char.toLower) = _
      rw [List.map_append]
      rfl

/-- The timeout rejection message always carries the lowercase marker
"timeout", whatever the context and model strings are. -/
theorem timeoutMsg_marked (msg : String) :
    strHas (lowerStr ("⏱️ TIMEOUT: " ++ msg)) "timeout" = true := by
  rw [lowerStr_append]
  exact strHas_append_left _ (by decide)

end Helpers

-- --- CONCRETE SCENARIOS (used by witnesses and counterexamples) ---

/-- Every call of pipeline index 0 rejects with an invalid-API-key message;
any later model would succeed. -/
def fatalOracle : Nat → Nat → Call Nat := fun i _ =>
  if i == 0 then ⟨0, Except.error "invalid api key"⟩ else ⟨0, Except.ok 7⟩

/-- Single-model oracle whose calls all reject with "overloaded". -/
def overloadedOracle : Nat → Call Nat := fun _ => ⟨0, Except.error "overloaded"⟩

/-- Every call of every model rejects with a 429-style message. -/
def quota429Oracle : Nat → Nat → Call Nat := fun _ _ => ⟨0, Except.error "429 too many requests"⟩

/-- Pipeline index 0 rejects with a bare "429"; every later index succeeds. -/
def switchOracle : Nat → Nat → Call Nat := fun i _ =>
  if i == 0 then ⟨0, Except.error "429"⟩ else ⟨0, Except.ok 7⟩

/-- A status callback that always throws. -/
def throwingCB : CB := fun _ => Except.error "cb boom"

/-- A status callback that never throws. -/
def okCB : CB := fun _ => Except.ok ()

/-- Every Market Intelligence call would fulfil, but only at the 25000 ms
deadline, so every attempt times out. -/
def timeoutOracleM : Nat → Nat → Call MarketCore :=
  fun _ _ => ⟨25000, Except.ok ⟨"s", ["h"], []⟩⟩

/-- Every Market Intelligence call fulfils promptly. -/
def marketOkOracle : Nat → Nat → Call MarketCore :=
  fun _ _ => ⟨0, Except.ok ⟨"sum", ["h1"], [("t", "u")]⟩⟩

/-- Every Backtest call rejects the way a JSON.parse failure on non-JSON
text does. -/
def malformedOracleB : Nat → Nat → Call BacktestCore :=
  fun _ _ => ⟨0, Except.error "unexpected token u in json"⟩

/-- A Simulation call that fulfils with an empty ghost-candle list. -/
def emptySimOracle : Nat → Nat → Call SimCore := fun _ _ => ⟨0, Except.ok ⟨"drift", []⟩⟩

/-- A ten-candle simulation answer. -/
def tenSim : SimCore := ⟨"up", List.replicate 10 ⟨1, 2, 3, 1, 2⟩⟩

/-- Every Simulation call fulfils with the ten-candle answer. -/
def tenSimOracle : Nat → Nat → Call SimCore := fun _ _ => ⟨0, Except.ok tenSim⟩

/-- A single-model oracle whose calls all settle exactly at the deadline. -/
def lateOracle : Nat → Call Nat := fun _ => ⟨25000, Except.ok 5⟩

-- --- CLAIM THEOREMS ---

/-- C3 (amended): the Attempt Runner re-throws a failure immediately —
without consuming the same-model retry, without any wait, and without a
status update — exactly when the lowercased message contains "429", "quota"
or "503" (`isHardError`); the error object reaches the Orchestrator
unchanged and the trace holds the single endpoint call.  (The wider spec
RateLimited class, e.g. a bare "overloaded" message, does not satisfy
`isHardError` and does consume the retry: see the counterexample.) -/
theorem C3_hard_immediate {T : Type} (oracle : Nat → Call T) (u : Option CB)
    (ctx model : String) (mi retries delay idx : Nat) (e : String)
    (h : withTimeout (oracle idx) 25000 (ctx ++ " (" ++ model ++ ")") = Except.error e)
    (hh : isHardError (lowerStr e) = true) :
    attemptRun oracle u ctx model mi retries delay idx = (Except.error e, [Ev.call mi idx]) :=
  attemptRun_hard_eq h hh

/-- Witness for C3: a 429-classified failure is rethrown after exactly one
endpoint call. -/
theorem C3_hard_immediate_witness :
    withTimeout (quota429Oracle 0 0) 25000 ("Backtest" ++ " (" ++ "m0" ++ ")") =
      Except.error "429 too many requests" ∧
    isHardError (lowerStr "429 too many requests") = true ∧
    attemptRun (quota429Oracle 0) none "Backtest" "m0" 0 1 1500 0 =
      (Except.error "429 too many requests", [Ev.call 0 0]) :=
  ⟨rfl, by decide,
   C3_hard_immediate (quota429Oracle 0) none "Backtest" "m0" 0 1 1500 0
     "429 too many requests" rfl (by decide)⟩

/-- Counterexample for C3 as stated: "overloaded" is RateLimited in the
spec classification (and switch-eligible in the orchestrator), yet the
Attempt Runner retries the same model once after a 1500 ms wait instead of
re-throwing immediately. -/
theorem C3_counterexample :
    isRecoverableBySwitching (lowerStr "overloaded") = true ∧
    isHardError (lowerStr "overloaded") = false ∧
    attemptModelExecution overloadedOracle none "m0" "Backtest" 0 =
      (Except.error "overloaded", [Ev.call 0 0, Ev.wait 1500, Ev.call 0 1]) :=
  ⟨by decide, by decide, rfl⟩

/-- C4: the Attempt Runner terminates with at most `retries + 1` endpoint
calls for one model, and at the budget hard-coded in the source
(`retries = 1`) with at most 2, before control returns to the Orchestrator. -/
theorem C4_attempt_retry_bound {T : Type} (oracle : Nat → Call T) (u : Option CB)
    (ctx model : String) (mi retries delay idx : Nat) :
    countCalls (attemptRun oracle u ctx model mi retries delay idx).snd ≤ retries + 1 ∧
    countCalls (attemptModelExecution oracle u model ctx mi).snd ≤ 2 :=
  ⟨attemptRun_calls_le retries delay idx, attemptRun_calls_le 1 1500 0⟩

/-- C8 (amended): a status callback that never throws has no influence on
the pipeline outcome; the source gives no guarantee for a throwing callback
(see the counterexample). -/
theorem C8_safe_callback {T : Type} (op : String) (f : CB)
    (oracle : Nat → Nat → Call T) (ms : List String)
    (hf : ∀ s, f s = Except.ok ()) :
    (executeWithModelPipeline op (some f) oracle ms).fst =
    (executeWithModelPipeline op none oracle ms).fst :=
  pipe_cb_fst hf ms 0 none

/-- Witness for C8: with the never-throwing callback the pipeline outcome
matches the callback-free run. -/
theorem C8_safe_callback_witness :
    (∀ s : String, okCB s = Except.ok ()) ∧
    (executeWithModelPipeline "Simulation" (some okCB) switchOracle ["alpha", "beta"]).fst =
    (executeWithModelPipeline "Simulation" none switchOracle ["alpha", "beta"]).fst :=
  ⟨fun _ => rfl,
   C8_safe_callback "Simulation" okCB switchOracle ["alpha", "beta"] (fun _ => rfl)⟩

/-- Counterexample for C8 as stated: a throwing callback does alter the
outcome.  Model "alpha" fails with a 429, the fallback notice for "beta"
throws, the thrown value is caught by the per-model handler, "beta" is never
called, and the operation rejects with the error thrown by the callback — where the
same oracle with no callback succeeds on "beta" after two endpoint calls. -/
theorem C8_counterexample :
    (executeWithModelPipeline "Simulation" (some throwingCB) switchOracle ["alpha", "beta"]).fst =
      Except.error "cb boom" ∧
    countCalls (executeWithModelPipeline "Simulation" (some throwingCB) switchOracle ["alpha", "beta"]).snd = 1 ∧
    (executeWithModelPipeline "Simulation" none switchOracle ["alpha", "beta"]).fst =
      Except.ok (7, "beta") ∧
    countCalls (executeWithModelPipeline "Simulation" none switchOracle ["alpha", "beta"]).snd = 2 :=
  ⟨rfl, by decide, rfl, by decide⟩

/-- C9 (amended): a successful `runSimulation` returns a ghost-candle list
exactly as some endpoint call produced it; nothing in the code enforces a
length of 10 (the schema carries no item-count constraint and there is no
post-parse validation), so the count is 10 precisely when every value the
endpoint can produce has 10 candles. -/
theorem C9_candles_from_endpoint (u : Option CB) (oracle : Nat → Nat → Call SimCore)
    (ms : List String) (r : SimCore) (m : String)
    (h10 : ∀ i j c, (oracle i j).result = Except.ok c → c.ghost_candles.length = 10)
    (hok : (runSimulation u oracle ms).fst = Except.ok (r, m)) :
    r.ghost_candles.length = 10 := by
  have hok2 : (pipelineGo "Simulation" u oracle ms 0 none).fst = Except.ok (r, m) := hok
  obtain ⟨k, j, _, _, hr⟩ := pipe_ok_src ms 0 none r m hok2
  exact h10 _ _ _ hr

/-- Witness for C9: an endpoint that always answers with 10 candles yields a
10-candle result. -/
theorem C9_candles_from_endpoint_witness :
    (∀ i j c, (tenSimOracle i j).result = Except.ok c → c.ghost_candles.length = 10) ∧
    (runSimulation none tenSimOracle ["m0"]).fst = Except.ok (tenSim, "m0") ∧
    tenSim.ghost_candles.length = 10 :=
  have h10 : ∀ i j c, (tenSimOracle i j).result = Except.ok c →
      c.ghost_candles.length = 10 := by
    intro i j c h
    injection h with h2
    rw [← h2]
    rfl
  ⟨h10, rfl, C9_candles_from_endpoint none tenSimOracle ["m0"] tenSim "m0" h10 rfl⟩

/-- Counterexample for C9 as stated: the endpoint answers with zero candles
and `runSimulation` resolves successfully with that zero-candle list — the
"exactly 10" bound is not enforced by the code. -/
theorem C9_counterexample :
    (runSimulation none emptySimOracle ["m0"]).fst =
      Except.ok ((⟨"drift", []⟩ : SimCore), "m0") ∧
    (SimCore.ghost_candles ⟨"drift", []⟩).length = 0 :=
  ⟨rfl, rfl⟩

/-- C1 (amended): a Fatal-classified error never causes a model switch —
no “ENGAGING BACKUP ENGINE” status is emitted, only the primary model is
called, and the error reaches the caller unchanged — but fatality is only
tested at the Orchestrator level, so the Attempt Runner first consumes its
same-model retry: the pipeline makes exactly two endpoint calls (both to the
primary model) and emits one RETRYING status, and the error that propagates
comes from the second call, not the first.  The clause "exactly one endpoint
call" is refuted by the counterexample. -/
theorem C1_fatal_single_model {T : Type} (op mm : String) (rest : List String)
    (f : CB) (oracle : Nat → Nat → Call T) (e0 e1 : String)
    (hf : ∀ s, f s = Except.ok ())
    (h0 : withTimeout (oracle 0 0) 25000 (op ++ " (" ++ mm ++ ")") = Except.error e0)
    (h1 : withTimeout (oracle 0 1) 25000 (op ++ " (" ++ mm ++ ")") = Except.error e1)
    (hh0 : isHardError (lowerStr e0) = false)
    (_hfat0 : isFatalMsg (lowerStr e0) = true)
    (hh1 : isHardError (lowerStr e1) = false)
    (hfat1 : isFatalMsg (lowerStr e1) = true) :
    executeWithModelPipeline op (some f) oracle (mm :: rest) =
      (Except.error e1,
       [Ev.call 0 0, Ev.status ("⚠️ RETRYING " ++ op ++ " (" ++ toString 1 ++ ")..."),
        Ev.wait 1500, Ev.call 0 1]) ∧
    countCalls (executeWithModelPipeline op (some f) oracle (mm :: rest)).snd = 2 ∧
    (∀ s, Ev.status s ∈ (executeWithModelPipeline op (some f) oracle (mm :: rest)).snd →
      s = "⚠️ RETRYING " ++ op ++ " (" ++ toString 1 ++ ")...") := by
  have hrest : attemptRun (oracle 0) (some f) op mm 0 0 (1500 + 1000) (0 + 1) =
      (Except.error e1, [Ev.call 0 (0 + 1)]) :=
    attemptRun_soft_zero (by exact h1) hh1
  have hatt : attemptModelExecution (oracle 0) (some f) mm op 0 =
      (Except.error e1,
       [Ev.call 0 0, Ev.status ("⚠️ RETRYING " ++ op ++ " (" ++ toString 1 ++ ")..."),
        Ev.wait 1500, Ev.call 0 1]) := by
    show attemptRun (oracle 0) (some f) op mm 0 (0 + 1) 1500 0 = _
    rw [attemptRun_soft_step_some h0 hh0 (hf _), hrest]
  have hmain : executeWithModelPipeline op (some f) oracle (mm :: rest) =
      (Except.error e1,
       [Ev.call 0 0, Ev.status ("⚠️ RETRYING " ++ op ++ " (" ++ toString 1 ++ ")..."),
        Ev.wait 1500, Ev.call 0 1]) := by
    show pipelineGo op (some f) oracle (mm :: rest) 0 none = _
    rw [pipelineGo_att_err_zero hatt, pipeAfter_fatal hfat1]
  refine ⟨hmain, ?_, ?_⟩
  · rw [hmain]
    simp [countCalls_cons_call, countCalls_cons_status, countCalls_cons_wait, countCalls_nil]
  · rw [hmain]
    intro s hs
    simp at hs
    exact hs

/-- Witness for C1 (amended): both calls of the primary model reject with
"invalid api key"; the pipeline stops at model 0, after its retry, and
propagates the error unchanged. -/
theorem C1_fatal_single_model_witness :
    (∀ s : String, okCB s = Except.ok ()) ∧
    executeWithModelPipeline "Chart Analysis" (some okCB) fatalOracle ["m0", "m1"] =
      (Except.error "invalid api key",
       [Ev.call 0 0, Ev.status "⚠️ RETRYING Chart Analysis (1)...",
        Ev.wait 1500, Ev.call 0 1]) :=
  ⟨fun _ => rfl,
   (C1_fatal_single_model "Chart Analysis" "m0" ["m1"] okCB fatalOracle
     "invalid api key" "invalid api key" (fun _ => rfl) rfl rfl
     (by decide) (by decide) (by decide) (by decide)).1⟩

/-- Counterexample for C1 as stated: with every call of the primary model
failing fatally ("invalid api key"), the pipeline makes TWO endpoint calls,
not exactly one — the Attempt Runner retried the fatal error once. -/
theorem C1_counterexample :
    countCalls (executeWithModelPipeline "Chart Analysis" none fatalOracle ["m0", "m1"]).snd = 2 ∧
    (executeWithModelPipeline "Chart Analysis" none fatalOracle ["m0", "m1"]).fst =
      Except.error "invalid api key" ∧
    isFatalMsg (lowerStr "invalid api key") = true :=
  ⟨by decide, rfl, by decide⟩

/-- C5: `fetchMarketContext` is total over every endpoint behaviour (every
oracle: timeouts, rate limits, fatal auth errors, malformed-parse failures
on every model): whenever the pipeline rejects — with any error — it
resolves with the clearly marked placeholder whose headlines list is empty,
and otherwise it resolves with the pipeline value.  In the embedding the
adapter return type carries no error case at all, which is the
never-throws guarantee. -/
theorem C5_market_never_throws (u : Option CB) (oracle : Nat → Nat → Call MarketCore)
    (ms : List String) :
    (∃ e, (executeWithModelPipeline "Market Intel" u oracle ms).fst = Except.error e ∧
      (fetchMarketContext u oracle ms).fst =
        ⟨"REAL-TIME DATA UNAVAILABLE.", [], [], none⟩ ∧
      (fetchMarketContext u oracle ms).fst.headlines = []) ∨
    (∃ c m, (executeWithModelPipeline "Market Intel" u oracle ms).fst = Except.ok (c, m) ∧
      (fetchMarketContext u oracle ms).fst = ⟨c.summary, c.headlines, c.sources, some m⟩) := by
  cases hp : executeWithModelPipeline "Market Intel" u oracle ms with
  | mk a evs =>
    cases a with
    | ok cm =>
      cases cm with
      | mk c m =>
        right
        refine ⟨c, m, rfl, ?_⟩
        unfold fetchMarketContext
        rw [hp]
    | error e =>
      left
      have hfm : (fetchMarketContext u oracle ms).fst =
          ⟨"REAL-TIME DATA UNAVAILABLE.", [], [], none⟩ := by
        unfold fetchMarketContext
        rw [hp]
      exact ⟨e, rfl, hfm, by rw [hfm]⟩

/-- C6: the three non-degrading adapters hand any terminal Orchestrator
error to their caller unchanged (they are the bare pipeline call, with no
catch), and in particular when no endpoint call ever parses successfully —
e.g. malformed non-JSON text on every model — `calculateBacktestScore`
rejects with some error and never substitutes a default result. -/
theorem C6_adapters_propagate (u : Option CB) (ms : List String) :
    (∀ (oracle : Nat → Nat → Call BacktestCore) (e : String),
      (executeWithModelPipeline "Backtest" u oracle ms).fst = Except.error e →
      (calculateBacktestScore u oracle ms).fst = Except.error e) ∧
    (∀ (oracle : Nat → Nat → Call AnalysisCore) (e : String),
      (executeWithModelPipeline "Chart Analysis" u oracle ms).fst = Except.error e →
      (analyzeChart u oracle ms).fst = Except.error e) ∧
    (∀ (oracle : Nat → Nat → Call SimCore) (e : String),
      (executeWithModelPipeline "Simulation" u oracle ms).fst = Except.error e →
      (runSimulation u oracle ms).fst = Except.error e) ∧
    (∀ oracle : Nat → Nat → Call BacktestCore,
      (∀ i j t, (oracle i j).result ≠ Except.ok t) →
      ∃ e, (calculateBacktestScore u oracle ms).fst = Except.error e) := by
  refine ⟨fun oracle e h => h, fun oracle e h => h, fun oracle e h => h, ?_⟩
  intro oracle hfail
  cases hp : (calculateBacktestScore u oracle ms).fst with
  | error e => exact ⟨e, rfl⟩
  | ok tm =>
    cases tm with
    | mk t m =>
      have hp2 : (pipelineGo "Backtest" u oracle ms 0 none).fst = Except.ok (t, m) := hp
      obtain ⟨k, j, _, _, hr⟩ := pipe_ok_src ms 0 none t m hp2
      exact absurd hr (hfail _ _ _)

/-- Witness for C6: malformed non-JSON answers on every call make
`calculateBacktestScore` reject. -/
theorem C6_adapters_propagate_witness :
    (∀ i j t, (malformedOracleB i j).result ≠ Except.ok t) ∧
    ∃ e, (calculateBacktestScore none malformedOracleB ["m0"]).fst = Except.error e :=
  have hfail : ∀ i j t, (malformedOracleB i j).result ≠ Except.ok t :=
    fun _ _ _ h => Except.noConfusion h
  ⟨hfail, (C6_adapters_propagate none ["m0"]).2.2.2 malformedOracleB hfail⟩

/-- C7: an attempt whose underlying call has not settled strictly before the
25000 ms deadline fails with the distinguishing timeout rejection — whatever
the late settlement of the underlying call would have been, including a
fulfilment, so a late success is never returned; the rejection message
always carries the lowercase "timeout" marker; and being hard-marker-free it
is treated as transient: with retries remaining, the runner issues a second
call to the same model instead of switching. -/
theorem C7_timeout_transient {T : Type} (oracle : Nat → Call T) (f : CB)
    (ctx model : String) (mi r delay idx : Nat)
    (hf : ∀ s, f s = Except.ok ())
    (hlate : 25000 ≤ (oracle idx).settleTime)
    (hsoft : isHardError (lowerStr ("⏱️ TIMEOUT: " ++ (ctx ++ " (" ++ model ++ ")"))) = false) :
    (∀ (c : Call T) (msg : String), 25000 ≤ c.settleTime →
      withTimeout c 25000 msg = Except.error ("⏱️ TIMEOUT: " ++ msg)) ∧
    strHas (lowerStr ("⏱️ TIMEOUT: " ++ (ctx ++ " (" ++ model ++ ")"))) "timeout" = true ∧
    Ev.call mi idx ∈ (attemptRun oracle (some f) ctx model mi (r + 1) delay idx).snd ∧
    Ev.call mi (idx + 1) ∈ (attemptRun oracle (some f) ctx model mi (r + 1) delay idx).snd := by
  have hto : withTimeout (oracle idx) 25000 (ctx ++ " (" ++ model ++ ")") =
      Except.error ("⏱️ TIMEOUT: " ++ (ctx ++ " (" ++ model ++ ")")) := withTimeout_late hlate
  refine ⟨fun c msg h => withTimeout_late h, timeoutMsg_marked _, attemptRun_call_mem, ?_⟩
  rw [attemptRun_soft_step_some hto hsoft (hf _)]
  simp only [List.mem_cons]
  exact Or.inr (Or.inr (Or.inr (by exact attemptRun_call_mem)))

/-- Witness for C7: a call settling exactly at the deadline with a would-be
success times out, and the runner retries the same model. -/
theorem C7_timeout_transient_witness :
    (25000 ≤ (lateOracle 0).settleTime) ∧
    isHardError (lowerStr ("⏱️ TIMEOUT: " ++ ("Simulation" ++ " (" ++ "m0" ++ ")"))) = false ∧
    strHas (lowerStr ("⏱️ TIMEOUT: " ++ ("Simulation" ++ " (" ++ "m0" ++ ")"))) "timeout" = true ∧
    Ev.call 0 0 ∈ (attemptRun lateOracle (some okCB) "Simulation" "m0" 0 (0 + 1) 1500 0).snd ∧
    Ev.call 0 1 ∈ (attemptRun lateOracle (some okCB) "Simulation" "m0" 0 (0 + 1) 1500 0).snd :=
  have h := C7_timeout_transient lateOracle okCB "Simulation" "m0" 0 0 1500 0
    (fun _ => rfl) (by decide) (by decide)
  ⟨by decide, by decide, h.2.1, h.2.2.1, h.2.2.2⟩

/-- C10: the degraded-mode record of `fetchMarketContext` carries no
model_used at all (`none`), while every successfully resolved record
carries `model_used = some m` where `m` is the pipeline entry whose oracle
call actually settled in time with exactly the returned core value. -/
theorem C10_model_used (u : Option CB) (oracle : Nat → Nat → Call MarketCore)
    (ms : List String) :
    (∀ e, (executeWithModelPipeline "Market Intel" u oracle ms).fst = Except.error e →
      (fetchMarketContext u oracle ms).fst.model_used = none) ∧
    (∀ c m, (executeWithModelPipeline "Market Intel" u oracle ms).fst = Except.ok (c, m) →
      (fetchMarketContext u oracle ms).fst.model_used = some m ∧
      ∃ k j, ms.get? k = some m ∧ (oracle k j).settleTime < 25000 ∧
        (oracle k j).result = Except.ok c) := by
  constructor
  · intro e h
    cases hp : executeWithModelPipeline "Market Intel" u oracle ms with
    | mk a evs =>
      rw [hp] at h
      simp at h
      unfold fetchMarketContext
      rw [hp, h]
  · intro c m h
    cases hp : executeWithModelPipeline "Market Intel" u oracle ms with
    | mk a evs =>
      rw [hp] at h
      simp at h
      constructor
      · unfold fetchMarketContext
        rw [hp, h]
      · have hp2 : (pipelineGo "Market Intel" u oracle ms 0 none).fst = Except.ok (c, m) := by
          show (executeWithModelPipeline "Market Intel" u oracle ms).fst = _
          rw [hp, h]
        obtain ⟨k, j, hget, hs, hr⟩ := pipe_ok_src ms 0 none c m hp2
        rw [Nat.zero_add] at hs hr
        exact ⟨k, j, hget, hs, hr⟩

/-- Witness for C10: a prompt success carries its producing model; an
all-timeouts run yields the placeholder with no model_used. -/
theorem C10_model_used_witness :
    (fetchMarketContext none marketOkOracle ["m0"]).fst.model_used = some "m0" ∧
    (fetchMarketContext none timeoutOracleM ["m0"]).fst.model_used = none :=
  ⟨((C10_model_used none marketOkOracle ["m0"]).2 ⟨"sum", ["h1"], [("t", "u")]⟩ "m0" rfl).1,
   (C10_model_used none timeoutOracleM ["m0"]).1 "⏱️ TIMEOUT: Market Intel (m0)" rfl⟩
